import Mathlib

/-!
Verification of the local service process manager of the BDA demo
repository (`src/Startup/project_manager.py`, `src/Startup/cleanup_ports.py`,
`src/Startup/gui_manager.py`).

The Python code is shallowly embedded: every operation becomes a pure Lean
function over an explicit `World` (the OS oracle: process table, port
bindings, spawn outcomes) and a `Registry` (the `running_processes.json`
content).  Exceptions raised by `os.kill` are modelled explicitly:
`ProcessLookupError` (target pid absent from the process table) and
`PermissionError` (`World.killRaises`); an uncaught exception is an
`Except.error` carrying the world at the raise point.
-/

namespace BDA

/-- A service catalog entry (one value of `project_config.json` /
`default_config` in `ProjectManager.load_config`). -/
structure ServiceDef where
  type : String
  language : String
  path : String
  start_command : String
  default_port : Nat
  health_endpoint : String
deriving DecidableEq, Repr

/-- One value of `running_processes.json` (the dict written by
`ProjectManager.start_project`). -/
structure ProcessRecord where
  pid : Nat
  project_name : String
  port : Nat
  type : String
  language : String
  health_endpoint : String
  started_at : Nat
deriving DecidableEq, Repr

/-- The content of `running_processes.json`: a Python dict, embedded as an
insertion-ordered association list with unique keys. -/
abbrev Registry := List (String × ProcessRecord)

/-- Python `key in d` / `d[key]` on the registry dict. -/
def regLookup : Registry → String → Option ProcessRecord
  | [], _ => none
  | (k, v) :: rest, key => if k = key then some v else regLookup rest key

/-- Python `d[key] = v`: replace in place when the key is present, else
append (dicts preserve insertion order). -/
def regInsert : Registry → String → ProcessRecord → Registry
  | [], key, v => [(key, v)]
  | (k, v') :: rest, key, v =>
    if k = key then (key, v) :: rest else (k, v') :: regInsert rest key v

/-- Python `del d[key]`. -/
def regErase (r : Registry) (key : String) : Registry :=
  r.filter (fun kv => kv.1 ≠ key)

/-- The service catalog (`self.config`), also a Python dict. -/
abbrev Config := List (String × ServiceDef)

/-- Python `name in self.config` / `self.config[name]`. -/
def cfgLookup : Config → String → Option ServiceDef
  | [], _ => none
  | (k, v) :: rest, key => if k = key then some v else cfgLookup rest key

/-- The OS oracle.  `alive` is the process table (`psutil.pid_exists`),
`bound port` the pids `lsof -ti :port` reports, `killRaises pid` whether
`os.kill` on that pid raises `PermissionError`, `termKills pid` whether the
process exits within the grace sleep after SIGTERM.  `spawnPid i`,
`spawnRaises i`, `spawnSurvives i` and `spawnBindsPort i` describe the
`i`-th `subprocess.Popen` call: its child pid, whether `Popen` itself
raises, whether `process.poll()` is still `None` after the 2-second startup
wait, and whether the surviving child binds its target port. -/
structure World where
  alive : List Nat
  bound : Nat → List Nat
  lsofAvailable : Bool
  pathExists : String → Bool
  killRaises : Nat → Bool
  termKills : Nat → Bool
  clock : Nat
  spawnCount : Nat
  spawnPid : Nat → Nat
  spawnRaises : Nat → Bool
  spawnSurvives : Nat → Bool
  spawnBindsPort : Nat → Bool

/-- Effect of a delivered fatal signal: the pid leaves the process table
and releases any port it held. -/
def World.killPid (w : World) (pid : Nat) : World :=
  { w with alive := w.alive.filter (fun q => q ≠ pid),
           bound := fun port => (w.bound port).filter (fun q => q ≠ pid) }

/-- Effect of SIGTERM followed by the grace sleep: the process is gone
afterwards exactly when it honours the signal (`termKills`). -/
def World.sigterm (w : World) (pid : Nat) : World :=
  if w.termKills pid then w.killPid pid else w

/-- The per-pid loop body shared by both `cleanup_port` variants
(`project_manager.py` lines 116-130, `cleanup_ports.py` lines 21-36):
`os.kill(pid, SIGTERM)`, `time.sleep(1)`, then `os.kill(pid, SIGKILL)`
inside `try/except ProcessLookupError`.  A SIGTERM `ProcessLookupError` is
caught by the per-pid `except (ProcessLookupError, ValueError)` and the
loop moves on; a `PermissionError` from either kill is caught by neither
handler and propagates (`Except.error` with the world at the raise). -/
def killBoth (w : World) (pid : Nat) : Except World World :=
  if pid ∈ w.alive then
    if w.killRaises pid then .error w
    else
      let w1 := w.sigterm pid
      if pid ∈ w1.alive then
        if w1.killRaises pid then .error w1
        else .ok (w1.killPid pid)
      else .ok w1
  else .ok w

/-- Whether `killBoth` completes without an uncaught exception: the pid is
either already absent or may be signalled. -/
def killOk (w : World) (pid : Nat) : Bool :=
  pid ∉ w.alive || !w.killRaises pid

/-- The pid loop of `ProjectManager.cleanup_port` (lines 116-130): every
listed pid is processed; a pid that already exited is skipped. -/
def cleanupPids : World → List Nat → Except World World
  | w, [] => .ok w
  | w, pid :: rest =>
    if pid ∈ w.alive then
      match killBoth w pid with
      | .error w1 => .error w1
      | .ok w1 => cleanupPids w1 rest
    else cleanupPids w rest

/-- `ProjectManager.cleanup_port` (`project_manager.py` lines 108-134):
look up the pids on the port via `lsof -ti :port` and run the kill loop on
each.  When `lsof` is unavailable (`FileNotFoundError`) the outer
`except` turns the whole call into a no-op. -/
def ProjectManager.cleanup_port (w : World) (port : Nat) : Except World World :=
  if w.lsofAvailable then cleanupPids w (w.bound port) else .ok w

/-- The pid loop of the standalone `cleanup_port` (`cleanup_ports.py` lines
21-36).  Unlike the manager's variant it executes `return True` inside the
loop right after the first pid it signals; when every listed pid had
already exited the `for` ends and the function falls through, returning
Python `None` (embedded as `none`). -/
def cleanupLoop : World → List Nat → Except World (Option Bool × World)
  | w, [] => .ok (none, w)
  | w, pid :: rest =>
    if pid ∈ w.alive then
      if w.killRaises pid then .error w
      else
        let w1 := w.sigterm pid
        if pid ∈ w1.alive then
          if w1.killRaises pid then .error w1
          else .ok (some true, w1.killPid pid)
        else .ok (some true, w1)
    else cleanupLoop w rest

/-- `cleanup_port` from `cleanup_ports.py` (lines 13-43): returns
`some true` after handling one pid, `some false` when the port is free or
`lsof` is unavailable, and `none` (Python's implicit `None`) when pids were
listed but all had already exited. -/
def cleanup_port (w : World) (port : Nat) : Except World (Option Bool × World) :=
  if w.lsofAvailable then
    let pids := w.bound port
    if pids.isEmpty then .ok (some false, w)
    else cleanupLoop w pids
  else .ok (some false, w)

/-- The registry key `f"{project_name}_{port}"` of
`ProjectManager.start_project` (line 160). -/
def process_key (project_name : String) (port : Nat) : String :=
  project_name ++ "_" ++ toString port

/-- Outcome of `ProjectManager.start_project`.  The Python function returns
a bare `bool`; the constructors record which early-return branch produced
`False` (each branch prints a distinct message): unknown project, type
mismatch, missing path, live record for the key, child exited during the
startup wait (lines 235-242), `Popen` raised (lines 244-246).  `crashed`
models an exception that no handler catches (a `PermissionError` escaping
`cleanup_port`), which would propagate out of `start_project` itself. -/
inductive StartResult where
  | projectNotFound
  | typeMismatch
  | pathMissing
  | alreadyRunning
  | launchFailed
  | startError
  | crashed
  | started (record : ProcessRecord)
deriving DecidableEq, Repr

/-- Python truthiness of the `start_project` return value. -/
def StartResult.isStarted : StartResult → Bool
  | .started _ => true
  | _ => false

/-- Result of a `start_project` call: the outcome, the final OS state, and
the successive payloads of `save_processes` (the registry file holds the
last element of `saves`, or its pre-call content when `saves` is empty). -/
structure StartOut where
  res : StartResult
  world : World
  saves : List Registry

/-- The child environment built at lines 172-178: `os.environ` plus
`PORT`/`PYTHONPATH` for Python services or `ASPNETCORE_URLS` for C#. -/
def buildEnv (base : List (String × String)) (language : String) (port : Nat)
    (base_dir : String) : List (String × String) :=
  if language = "python" then
    base ++ [("PORT", toString port), ("PYTHONPATH", base_dir)]
  else if language = "csharp" then
    base ++ [("ASPNETCORE_URLS", "http://localhost:" ++ toString port)]
  else base

/-- The argv the spawn uses (lines 196-214): static HTML servers get the
hard-coded `http.server` command with the port appended; everything else
is `start_command.split()`. -/
def spawnCmd (pc : ServiceDef) (port : Nat) : List String :=
  if pc.language = "html" then ["python", "-m", "http.server", toString port]
  else pc.start_command.splitOn " "

/-- `ProjectManager.start_project` (`project_manager.py` lines 136-246),
with `file` the current content of `running_processes.json`:
1. unknown project / wrong component type / missing path fail early;
2. `port` is `ports[0] if ports else default_port` (line 148);
3. `cleanup_port(port)` runs unconditionally (line 156);
4. the registry is loaded; a key whose pid is still alive yields
   `alreadyRunning`; a stale key is deleted and the deletion saved
   (lines 158-170);
5. the child is spawned; if `Popen` raises, or the child has exited after
   the 2-second wait, the call fails with no further registry write;
   otherwise the new record is inserted and saved (lines 192-246).
The dependency-installation step (lines 180-190) only runs `pip` and
prints; it touches neither the registry nor the process table and has no
effect on this state. -/
def ProjectManager.start_project (w : World) (config : Config) (file : Registry)
    (project_name component_type : String) (ports : List Nat) : StartOut :=
  match cfgLookup config project_name with
  | none => ⟨.projectNotFound, w, []⟩
  | some pc =>
    if pc.type ≠ component_type then ⟨.typeMismatch, w, []⟩
    else
      let port := ports.headD pc.default_port
      if !w.pathExists pc.path then ⟨.pathMissing, w, []⟩
      else
        match ProjectManager.cleanup_port w port with
        | .error w1 => ⟨.crashed, w1, []⟩
        | .ok w1 =>
          let key := process_key project_name port
          let staleCheck : Option (Registry × List Registry) :=
            match regLookup file key with
            | some info =>
              if info.pid ∈ w1.alive then none
              else some (regErase file key, [regErase file key])
            | none => some (file, [])
          match staleCheck with
          | none => ⟨.alreadyRunning, w1, []⟩
          | some (file1, saves1) =>
            let _env := buildEnv [] pc.language port "base_dir"
            let _cmd := spawnCmd pc port
            let i := w1.spawnCount
            let w2 := { w1 with spawnCount := i + 1 }
            if w1.spawnRaises i then ⟨.startError, w2, saves1⟩
            else
              let pid := w1.spawnPid i
              if w1.spawnSurvives i then
                let w3 :=
                  { w2 with
                    alive := pid :: w2.alive,
                    bound := fun q =>
                      if w1.spawnBindsPort i ∧ q = port then pid :: w2.bound q
                      else w2.bound q }
                let record : ProcessRecord :=
                  { pid := pid, project_name := project_name, port := port,
                    type := component_type, language := pc.language,
                    health_endpoint := pc.health_endpoint, started_at := w1.clock }
                ⟨.started record, w3, saves1 ++ [regInsert file1 key record]⟩
              else ⟨.launchFailed, w2, saves1⟩

/-- Result of a `stop_project` call: the returned `bool`, the final OS
state, and the `save_processes` payloads (empty on the `NotFound` early
return, which happens before any save). -/
structure StopOut where
  ok : Bool
  world : World
  saves : List Registry

/-- The `to_remove` selection of `stop_project` (lines 254-259): entries
whose `project_name`, optional `port`, and `type` all match. -/
def stopMatches (file : Registry) (project_name component_type : String)
    (port : Option Nat) : List (String × ProcessRecord) :=
  file.filter (fun kv =>
    kv.2.project_name == project_name &&
    (match port with | none => true | some p => kv.2.port == p) &&
    kv.2.type == component_type)

/-- The per-entry body of `stop_project`'s loop (lines 266-284): graceful
SIGTERM, grace sleep, forceful SIGKILL if still alive, all inside
`try/except Exception`; returns the new world and whether the entry was
handled (and hence deleted).  A pid absent from the process table is
handled without signalling; a `PermissionError` is caught and leaves the
entry in place. -/
def stopOne (w : World) (pid : Nat) : World × Bool :=
  if pid ∈ w.alive then
    if w.killRaises pid then (w, false)
    else
      let w1 := w.sigterm pid
      if pid ∈ w1.alive then
        if w1.killRaises pid then (w1, false)
        else (w1.killPid pid, true)
      else (w1, true)
  else (w, true)

/-- The loop of `stop_project` over `to_remove`: each handled entry is
deleted from the dict; a failed one flips `success` to `False` and is
kept. -/
def stopFold : World → Registry → Bool → List (String × ProcessRecord) →
    World × Registry × Bool
  | w, procs, success, [] => (w, procs, success)
  | w, procs, success, (key, info) :: rest =>
    let step := stopOne w info.pid
    if step.2 then stopFold step.1 (regErase procs key) success rest
    else stopFold step.1 procs false rest

/-- `ProjectManager.stop_project` (`project_manager.py` lines 248-287):
match entries by name, optional first port, and type; return `False` with
no registry write when nothing matches; otherwise stop each match,
deleting handled entries, and save the resulting dict once. -/
def ProjectManager.stop_project (w : World) (file : Registry)
    (project_name component_type : String) (ports : List Nat) : StopOut :=
  let port := ports.head?
  let to_remove := stopMatches file project_name component_type port
  if to_remove.isEmpty then ⟨false, w, []⟩
  else
    let out := stopFold w file true to_remove
    ⟨out.2.2, out.1, [out.2.1]⟩

/-- Outcome of `requests.get(health_url, timeout=5)`: a response with a
status code, or one of the exceptions `requests` raises (timeout,
connection refused, anything else). -/
inductive HttpOutcome where
  | resp (status : Nat)
  | timeout
  | connectionRefused
  | otherError
deriving DecidableEq, Repr

/-- Which message box `BDAProjectGUI.check_health` shows: the
`showinfo` "healthy" box, the `showwarning` box with the status code, or
the `showerror` box from the `except` branch. -/
inductive HealthClass where
  | healthy
  | unhealthyStatus (status : Nat)
  | failedError
deriving DecidableEq, Repr

/-- `BDAProjectGUI.check_health` (`gui_manager.py` lines 439-451): a
response with `status_code == 200` is healthy; any other status code gets
the warning box; every exception (timeout, refusal, …) gets the error
box.  The probe is bounded by the request's 5-second timeout: every
outcome is classified, none hangs. -/
def BDAProjectGUI.check_health : HttpOutcome → HealthClass
  | .resp s => if s = 200 then .healthy else .unhealthyStatus s
  | .timeout => .failedError
  | .connectionRefused => .failedError
  | .otherError => .failedError

/-- The hard-coded `default_config` of `ProjectManager.load_config`
(`project_manager.py` lines 25-82), in source order. -/
def default_config : Config :=
  [ ("python_blueprint_api",
     { type := "backend", language := "python", path := "python/BlueprintAPI",
       start_command := "python -m uvicorn src.api:app --host 0.0.0.0 --port 8000",
       default_port := 8000, health_endpoint := "/health" }),
    ("python_textract",
     { type := "backend", language := "python", path := "python/Textract",
       start_command := "python src/lambda_local.py",
       default_port := 8001, health_endpoint := "/health" }),
    ("python_analyze_document",
     { type := "backend", language := "python", path := "python/AnalyzeDocument",
       start_command := "python src/api.py",
       default_port := 8002, health_endpoint := "/health" }),
    ("csharp_blueprint_api",
     { type := "backend", language := "csharp", path := "csharp/BlueprintAPI",
       start_command := "dotnet run",
       default_port := 5000, health_endpoint := "/api/document/health" }),
    ("csharp_textract",
     { type := "backend", language := "csharp", path := "csharp/Textract",
       start_command := "dotnet run",
       default_port := 5001, health_endpoint := "/health" }),
    ("csharp_analyze_document",
     { type := "backend", language := "csharp", path := "csharp/AnalyzeDocument",
       start_command := "dotnet run",
       default_port := 5002, health_endpoint := "/api/document/health" }),
    ("documentation_portal",
     { type := "frontend", language := "html", path := "Docs",
       start_command := "python -m http.server",
       default_port := 8080, health_endpoint := "/index.html" }) ]

/-- Result of `ProjectManager.load_config`: the catalog in memory and
whether `save_config` ran (it runs exactly when the file was absent). -/
structure ConfigOut where
  config : Config
  savedConfig : Bool
deriving DecidableEq

/-- `ProjectManager.load_config` (`project_manager.py` lines 23-89): use
the file's parsed content when `project_config.json` exists, otherwise
install `default_config` and persist it via `save_config`. -/
def ProjectManager.load_config (fileExists : Bool) (fileContents : Config) :
    ConfigOut :=
  if fileExists then ⟨fileContents, false⟩ else ⟨default_config, true⟩

/-- Count of catalog entries with a given component type and language
(used to state the default-catalog shape). -/
def countKindLang (cfg : Config) (ty lang : String) : Nat :=
  (cfg.filter (fun kv => kv.2.type = ty ∧ kv.2.language = lang)).length

/-- The default ports of a catalog, in source order. -/
def catalogPorts (cfg : Config) : List Nat :=
  cfg.map (fun kv => kv.2.default_port)

/-- Two worlds that agree on everything except the process table and the
port bindings: the oracle inputs (kill outcomes, spawn script, clock,
spawn counter, path table, `lsof` availability) are untouched.  Signalling
processes only changes `alive` and `bound`, so every kill-loop step
preserves this relation. -/
def World.oraclesEq (w1 w : World) : Prop :=
  w1.lsofAvailable = w.lsofAvailable ∧ w1.pathExists = w.pathExists ∧
  w1.killRaises = w.killRaises ∧ w1.termKills = w.termKills ∧
  w1.clock = w.clock ∧ w1.spawnCount = w.spawnCount ∧
  w1.spawnPid = w.spawnPid ∧ w1.spawnRaises = w.spawnRaises ∧
  w1.spawnSurvives = w.spawnSurvives ∧ w1.spawnBindsPort = w.spawnBindsPort

/-- The keys of the matched entries a `stop_project` run handles
successfully (the ones it deletes from the dict). -/
def handledKeys (w : World) (ms : List (String × ProcessRecord)) : List String :=
  (ms.filter (fun kv => killOk w kv.2.pid)).map Prod.fst

/-- A benign OS oracle for concrete runs: empty process table, all ports
free, `lsof` present, every path exists, no kill ever raises, SIGTERM is
ignored (SIGKILL does the work), and the `i`-th spawn yields the healthy
port-binding child `100 + i`. -/
def demoWorld : World :=
  { alive := [], bound := fun _ => [], lsofAvailable := true,
    pathExists := fun _ => true, killRaises := fun _ => false,
    termKills := fun _ => false, clock := 42, spawnCount := 0,
    spawnPid := fun i => 100 + i, spawnRaises := fun _ => false,
    spawnSurvives := fun _ => true, spawnBindsPort := fun _ => true }

/-- First `start_project` call of the double-start scenario:
`python_textract` on its default port 8001 against an empty registry. -/
def doubleStartFirst : StartOut :=
  ProjectManager.start_project demoWorld default_config []
    "python_textract" "backend" []

/-- Second `start_project` call of the double-start scenario, issued
against the world and registry file the first call produced, with no
intervening `stop`. -/
def doubleStartSecond : StartOut :=
  ProjectManager.start_project doubleStartFirst.world default_config
    (doubleStartFirst.saves.getLastD []) "python_textract" "backend" []

/-- A world in which two live processes (pids 7 and 8) are both bound to
port 9000. -/
def twoPidWorld : World :=
  { demoWorld with alive := [7, 8],
                   bound := fun q => if q = 9000 then [7, 8] else [] }

/-- Decidable view of a `cleanup_port` result: its return value and the
process table it leaves behind (`none` when the call raised). -/
def cleanupView : Except World (Option Bool × World) → Option (Option Bool × List Nat)
  | .ok (b, w) => some (b, w.alive)
  | .error _ => none

/-- A stale registry record: pid 999 is not in `demoWorld`'s (empty)
process table. -/
def staleRecord : ProcessRecord :=
  { pid := 999, project_name := "python_textract", port := 8001,
    type := "backend", language := "python", health_endpoint := "/health",
    started_at := 7 }

/-- The same record for a live process, pid 100. -/
def liveRecord : ProcessRecord :=
  { staleRecord with pid := 100 }

/-- A world whose process table holds pid 100, which is not bound to any
port (so port reconciliation cannot find it). -/
def liveUnboundWorld : World :=
  { demoWorld with alive := [100] }

/-- A registry file holding the single live record for
`python_textract` on port 8001. -/
def liveFile : Registry :=
  [("python_textract_8001", liveRecord)]

/-- A registry file holding the single stale record for
`python_textract` on port 8001. -/
def staleFile : Registry :=
  [("python_textract_8001", staleRecord)]

/-- A world whose spawns always die within the startup wait. -/
def failSpawnWorld : World :=
  { demoWorld with spawnSurvives := fun _ => false }

/-- Registry records for three instances of a service `svc` on ports
9001-9003, pids 11-13. -/
def recA : ProcessRecord :=
  { pid := 11, project_name := "svc", port := 9001, type := "backend",
    language := "python", health_endpoint := "/health", started_at := 1 }

/-- Second instance of `svc` (see `recA`). -/
def recB : ProcessRecord :=
  { recA with pid := 12, port := 9002 }

/-- Third instance of `svc` (see `recA`). -/
def recC : ProcessRecord :=
  { recA with pid := 13, port := 9003 }

/-- A registry file holding the three `svc` instances. -/
def threeFile : Registry :=
  [("svc_9001", recA), ("svc_9002", recB), ("svc_9003", recC)]

/-- A world where all three `svc` pids are alive but signalling pid 12
raises a permission error. -/
def permWorld : World :=
  { demoWorld with alive := [11, 12, 13], killRaises := fun p => p = 12 }

/-- A world where only pid 11 is alive and no kill raises. -/
def oneAliveWorld : World :=
  { demoWorld with alive := [11] }

/-- A registry file holding the single `svc` instance `recA`. -/
def oneFile : Registry :=
  [("svc_9001", recA)]

/-- C6: the spec claims any 2xx response is classified healthy, but
`check_health` tests `status_code == 200` exactly: the 2xx status 204 is
sent to the warning (unhealthy) branch. -/
theorem c6_counterexample :
    BDAProjectGUI.check_health (.resp 204) ≠ HealthClass.healthy ∧
    200 ≤ 204 ∧ 204 < 300 := by decide

/-- C6 (amended): the probe classifies a response healthy exactly when its
status code is 200; every other status code and every request exception
(timeout, connection refused, anything else) is unhealthy.  The
classification is a total function of the bounded request outcome, so a
probe against a dead port gets `failedError` from the raised exception and
never hangs. -/
theorem c6_health_probe :
    ∀ o, BDAProjectGUI.check_health o = HealthClass.healthy ↔ o = .resp 200 := by
  intro o
  cases o with
  | resp s =>
    by_cases h : s = 200 <;>
      simp [BDAProjectGUI.check_health, h]
  | timeout => simp [BDAProjectGUI.check_health]
  | connectionRefused => simp [BDAProjectGUI.check_health]
  | otherError => simp [BDAProjectGUI.check_health]

/-- C8: the spec claims the default catalog has exactly two
document-processing backends per language, but `default_config` contains
three Python backends (and three C# ones). -/
theorem c8_counterexample :
    countKindLang default_config "backend" "python" = 3 ∧
    countKindLang default_config "backend" "python" ≠ 2 := by decide

/-- C8 (amended): when `project_config.json` is absent, `load_config`
installs the hard-coded `default_config` and persists it; the default
catalog holds three document-processing backends per implementation
language (Python and C#) plus one static documentation server, seven
entries in all, with pairwise distinct default ports; when the file
exists its parsed contents are used unchanged and nothing is saved. -/
theorem c8_default_catalog (contents : Config) :
    ProjectManager.load_config false contents = ⟨default_config, true⟩ ∧
    ProjectManager.load_config true contents = ⟨contents, false⟩ ∧
    countKindLang default_config "backend" "python" = 3 ∧
    countKindLang default_config "backend" "csharp" = 3 ∧
    countKindLang default_config "frontend" "html" = 1 ∧
    default_config.length = 7 ∧
    (catalogPorts default_config).Nodup :=
  ⟨rfl, rfl, by decide, by decide, by decide, by decide, by decide⟩

/-- C9: `start_project` binds `ports[0]` when the port list is non-empty,
ignoring every further element, and falls back to the catalog entry's
`default_port` when the list is empty. -/
theorem c9_port_fallback (w : World) (config : Config) (file : Registry)
    (n t : String) (p : Nat) (rest : List Nat) :
    ProjectManager.start_project w config file n t (p :: rest) =
      ProjectManager.start_project w config file n t [p] ∧
    ∀ pc, cfgLookup config n = some pc →
      ProjectManager.start_project w config file n t [] =
        ProjectManager.start_project w config file n t [pc.default_port] := by
  constructor
  · rfl
  · intro pc h
    unfold ProjectManager.start_project
    rw [h]
    rfl

/-- C9 witness: starting `python_textract` with ports `[9100, 9]` equals
starting it with `[9100]`, and with `[]` equals starting on the default
port 8001. -/
theorem c9_witness :
    ProjectManager.start_project demoWorld default_config []
        "python_textract" "backend" [9100, 9] =
      ProjectManager.start_project demoWorld default_config []
        "python_textract" "backend" [9100] ∧
    ProjectManager.start_project demoWorld default_config []
        "python_textract" "backend" [] =
      ProjectManager.start_project demoWorld default_config []
        "python_textract" "backend" [8001] := by
  refine ⟨(c9_port_fallback demoWorld default_config []
    "python_textract" "backend" 9100 [9]).1, ?_⟩
  exact (c9_port_fallback demoWorld default_config []
    "python_textract" "backend" 9100 [9]).2
    { type := "backend", language := "python", path := "python/Textract",
      start_command := "python src/lambda_local.py",
      default_port := 8001, health_endpoint := "/health" } (by decide)

/-- C1: the claim fails on the code because `cleanup_port` runs before the
already-running check.  In the double-start scenario the first call spawns
pid 100 bound to port 8001; the second call's port reconciliation kills
pid 100, the registry entry is then stale and discarded, and a fresh
pid 101 is spawned: the second call returns success, not `AlreadyRunning`. -/
theorem c1_counterexample :
    doubleStartFirst.res.isStarted = true ∧
    doubleStartFirst.world.alive = [100] ∧
    doubleStartSecond.res ≠ StartResult.alreadyRunning ∧
    doubleStartSecond.res.isStarted = true ∧
    doubleStartSecond.world.alive = [101] := by decide

/-- C5: the claim fails on the code because `cleanup_ports.cleanup_port`
executes `return True` inside the pid loop: with live pids 7 and 8 both
bound to port 9000 it kills pid 7, returns `True`, and leaves pid 8 alive
and still bound. -/
theorem c5_counterexample :
    cleanupView (cleanup_port twoPidWorld 9000) = some (some true, [8]) ∧
    8 ∈ twoPidWorld.bound 9000 ∧ 8 ∈ twoPidWorld.alive := by decide

/-- Decimal value of a digit string: the proof-side decoder showing the
port suffix of a registry key determines the port. -/
def digitsVal (l : List Char) : Nat :=
  l.foldl (fun acc c => 10 * acc + (c.toNat - 48)) 0

theorem regLookup_regErase_self (r : Registry) (k : String) :
    regLookup (regErase r k) k = none := by
  induction r with
  | nil => rfl
  | cons kv rest ih =>
    by_cases h : kv.1 = k
    · simpa [regErase, h] using ih
    · simpa [regErase, regLookup, h] using ih

theorem regErase_of_lookup_none (r : Registry) (k : String)
    (h : regLookup r k = none) : regErase r k = r := by
  induction r with
  | nil => rfl
  | cons kv rest ih =>
    by_cases hk : kv.1 = k
    · simp [regLookup, hk] at h
    · simp only [regLookup, hk, if_neg] at h
      simp [regErase, hk] at ih ⊢
      exact ih h

theorem nodupKeys_entry_unique (r : Registry) (hnd : (r.map Prod.fst).Nodup)
    {a b : String × ProcessRecord} (ha : a ∈ r) (hb : b ∈ r) (h : a.1 = b.1) :
    a = b := by
  induction r with
  | nil => cases ha
  | cons kv rest ih =>
    simp only [List.map_cons, List.nodup_cons] at hnd
    rcases List.mem_cons.mp ha with rfl | ha' <;>
      rcases List.mem_cons.mp hb with rfl | hb'
    · rfl
    · exact absurd (h ▸ List.mem_map_of_mem Prod.fst hb') hnd.1
    · exact absurd (h ▸ List.mem_map_of_mem Prod.fst ha') hnd.1
    · exact ih hnd.2 ha' hb'

theorem regLookup_of_mem (r : Registry) (hnd : (r.map Prod.fst).Nodup)
    {kv : String × ProcessRecord} (h : kv ∈ r) :
    regLookup r kv.1 = some kv.2 := by
  induction r with
  | nil => cases h
  | cons e rest ih =>
    simp only [List.map_cons, List.nodup_cons] at hnd
    rcases List.mem_cons.mp h with rfl | h'
    · simp [regLookup]
    · have hne : e.1 ≠ kv.1 := by
        intro hk
        exact hnd.1 (hk ▸ List.mem_map_of_mem Prod.fst h')
      simpa [regLookup, hne] using ih hnd.2 h'

theorem regLookup_filter_eq_none (r : Registry) (p : String × ProcessRecord → Bool)
    (k : String) (h : ∀ e ∈ r, e.1 = k → p e = false) :
    regLookup (r.filter p) k = none := by
  induction r with
  | nil => rfl
  | cons kv rest ih =>
    have ih' := ih fun e he => h e (List.mem_cons_of_mem kv he)
    by_cases hp : p kv
    · have hk : kv.1 ≠ k := fun hk => by
        simpa [hp] using h kv (List.mem_cons_self kv rest) hk
      simpa [List.filter_cons, hp, regLookup, hk] using ih'
    · have hp' : p kv = false := by
        cases hpv : p kv
        · rfl
        · exact absurd hpv hp
      simpa [List.filter_cons, hp'] using ih'

theorem World.oraclesEq_refl (w : World) : w.oraclesEq w :=
  ⟨rfl, rfl, rfl, rfl, rfl, rfl, rfl, rfl, rfl, rfl⟩

theorem World.oraclesEq_trans {w1 w2 w3 : World}
    (h1 : w1.oraclesEq w2) (h2 : w2.oraclesEq w3) : w1.oraclesEq w3 := by
  obtain ⟨a1, a2, a3, a4, a5, a6, a7, a8, a9, a10⟩ := h1
  obtain ⟨b1, b2, b3, b4, b5, b6, b7, b8, b9, b10⟩ := h2
  exact ⟨a1.trans b1, a2.trans b2, a3.trans b3, a4.trans b4, a5.trans b5,
    a6.trans b6, a7.trans b7, a8.trans b8, a9.trans b9, a10.trans b10⟩

theorem killPid_oraclesEq (w : World) (pid : Nat) : (w.killPid pid).oraclesEq w :=
  ⟨rfl, rfl, rfl, rfl, rfl, rfl, rfl, rfl, rfl, rfl⟩

theorem mem_killPid_alive (w : World) (pid q : Nat) :
    q ∈ (w.killPid pid).alive ↔ q ∈ w.alive ∧ q ≠ pid := by
  simp [World.killPid, List.mem_filter]

theorem killBoth_ok (w : World) (pid : Nat) (h : w.killRaises pid = false) :
    ∃ w1, killBoth w pid = .ok w1 ∧ w1.oraclesEq w ∧
      (w1.alive = w.alive ∨ w1.alive = w.alive.filter (fun q => q ≠ pid)) := by
  unfold killBoth World.sigterm
  by_cases h1 : pid ∈ w.alive
  · simp only [h1, if_true, h, if_false, Bool.false_eq_true]
    by_cases h2 : w.termKills pid
    · simp only [h2, if_true]
      have : pid ∉ (w.killPid pid).alive := by
        simp [mem_killPid_alive]
      simp only [this, if_false]
      exact ⟨w.killPid pid, rfl, killPid_oraclesEq w pid, Or.inr rfl⟩
    · simp only [h2, if_false, Bool.false_eq_true, h1, if_true]
      exact ⟨w.killPid pid, by simp [h], killPid_oraclesEq w pid, Or.inr rfl⟩
  · simp only [h1, if_false]
    exact ⟨w, rfl, World.oraclesEq_refl w, Or.inl rfl⟩

theorem cleanupPids_ok (pids : List Nat) : ∀ (w : World),
    (∀ q ∈ pids, w.killRaises q = false) →
    ∃ w1, cleanupPids w pids = .ok w1 ∧ w1.oraclesEq w ∧
      (∀ p, p ∈ w1.alive → p ∈ w.alive) ∧
      (∀ p, p ∉ pids → (p ∈ w1.alive ↔ p ∈ w.alive)) := by
  induction pids with
  | nil =>
    intro w _
    exact ⟨w, rfl, World.oraclesEq_refl w, fun _ h => h, fun _ _ => Iff.rfl⟩
  | cons pid rest ih =>
    intro w h
    by_cases h1 : pid ∈ w.alive
    · obtain ⟨w1, hkb, horc, halive⟩ :=
        killBoth_ok w pid (h pid (List.mem_cons_self pid rest))
      have hrest : ∀ q ∈ rest, w1.killRaises q = false := by
        intro q hq
        rw [horc.2.2.1]
        exact h q (List.mem_cons_of_mem pid hq)
      obtain ⟨w2, hcl, horc2, hsub2, hpres2⟩ := ih w1 hrest
      refine ⟨w2, ?_, World.oraclesEq_trans horc2 horc, ?_, ?_⟩
      · simp [cleanupPids, h1, hkb, hcl]
      · intro p hp
        have hp1 := hsub2 p hp
        rcases halive with he | he
        · exact he ▸ hp1
        · exact (List.mem_filter.mp (he ▸ hp1)).1
      · intro p hp
        have hp' : p ∉ rest := fun hr => hp (List.mem_cons_of_mem pid hr)
        have hpne : p ≠ pid := fun hr => hp (hr ▸ List.mem_cons_self pid rest)
        rw [hpres2 p hp']
        rcases halive with he | he
        · rw [he]
        · rw [he]
          simp [List.mem_filter, hpne]
    · obtain ⟨w1, hcl, horc, hsub, hpres⟩ :=
        ih w (fun q hq => h q (List.mem_cons_of_mem pid hq))
      refine ⟨w1, ?_, horc, hsub, ?_⟩
      · simp [cleanupPids, h1, hcl]
      · intro p hp
        exact hpres p (fun hr => hp (List.mem_cons_of_mem pid hr))

theorem cleanup_port_ok (w : World) (port : Nat)
    (h : ∀ q ∈ w.bound port, w.killRaises q = false) :
    ∃ w1, ProjectManager.cleanup_port w port = .ok w1 ∧ w1.oraclesEq w ∧
      (∀ p, p ∈ w1.alive → p ∈ w.alive) ∧
      (∀ p, p ∉ w.bound port → (p ∈ w1.alive ↔ p ∈ w.alive)) := by
  unfold ProjectManager.cleanup_port
  cases hls : w.lsofAvailable
  · exact ⟨w, by simp, World.oraclesEq_refl w, fun _ h => h, fun _ _ => Iff.rfl⟩
  · simpa using cleanupPids_ok (w.bound port) w h

/-- C2: a registry entry for `(service, port)` whose pid is not in the OS
process table does not block a new `start`: the stale entry is deleted,
the deletion is persisted (the first `save_processes` payload is the
registry minus the key), the call does not return `AlreadyRunning`, and a
spawn is attempted (the spawn counter advances). -/
theorem c2_stale_reclamation (w : World) (config : Config) (file : Registry)
    (n t : String) (ports : List Nat) (pc : ServiceDef) (info : ProcessRecord)
    (hc : cfgLookup config n = some pc)
    (ht : pc.type = t)
    (hp : w.pathExists pc.path = true)
    (hkr : ∀ q ∈ w.bound (ports.headD pc.default_port), w.killRaises q = false)
    (hkey : regLookup file (process_key n (ports.headD pc.default_port)) = some info)
    (hdead : info.pid ∉ w.alive) :
    (ProjectManager.start_project w config file n t ports).res ≠
        StartResult.alreadyRunning ∧
    (ProjectManager.start_project w config file n t ports).saves.head? =
        some (regErase file (process_key n (ports.headD pc.default_port))) ∧
    (ProjectManager.start_project w config file n t ports).world.spawnCount =
        w.spawnCount + 1 := by
  obtain ⟨w1, hcl, horc, hsub, _⟩ :=
    cleanup_port_ok w (ports.headD pc.default_port) hkr
  have hdead1 : info.pid ∉ w1.alive := fun hmem => hdead (hsub info.pid hmem)
  have hsc : w1.spawnCount = w.spawnCount := horc.2.2.2.2.2.1
  unfold ProjectManager.start_project
  rw [hc]
  simp only [ht, ne_eq, not_true_eq_false, if_false, hp, Bool.not_true,
    Bool.false_eq_true, hcl, hkey, hdead1, if_true, if_false]
  split
  · exact ⟨by simp, rfl, by simp [hsc]⟩
  · split
    · exact ⟨by simp, rfl, by simp [hsc]⟩
    · exact ⟨by simp, rfl, by simp [hsc]⟩

/-- C1 (amended): calling `start` twice for the same `(service, port)`
without an intervening `stop` returns `AlreadyRunning` from the second
call — with no registry write, no spawn, and the first process left
alive — provided the port inspection at the second call does not list the
first process's pid (otherwise the unconditional `cleanup_port` kills it
first, its registry entry then reads as stale, and a fresh process is
spawned instead; either way at most one live process remains). -/
theorem c1_no_duplicate_bind (w : World) (config : Config) (file : Registry)
    (n t : String) (ports : List Nat) (pc : ServiceDef) (info : ProcessRecord)
    (hc : cfgLookup config n = some pc)
    (ht : pc.type = t)
    (hp : w.pathExists pc.path = true)
    (hkr : ∀ q ∈ w.bound (ports.headD pc.default_port), w.killRaises q = false)
    (hkey : regLookup file (process_key n (ports.headD pc.default_port)) = some info)
    (halive : info.pid ∈ w.alive)
    (hnb : info.pid ∉ w.bound (ports.headD pc.default_port)) :
    (ProjectManager.start_project w config file n t ports).res =
        StartResult.alreadyRunning ∧
    (ProjectManager.start_project w config file n t ports).saves = [] ∧
    (ProjectManager.start_project w config file n t ports).world.spawnCount =
        w.spawnCount ∧
    info.pid ∈ (ProjectManager.start_project w config file n t ports).world.alive := by
  obtain ⟨w1, hcl, horc, _, hpres⟩ :=
    cleanup_port_ok w (ports.headD pc.default_port) hkr
  have halive1 : info.pid ∈ w1.alive := (hpres info.pid hnb).mpr halive
  have hsc : w1.spawnCount = w.spawnCount := horc.2.2.2.2.2.1
  unfold ProjectManager.start_project
  rw [hc]
  simp only [ht, ne_eq, not_true_eq_false, if_false, hp, Bool.not_true,
    Bool.false_eq_true, hcl, hkey, halive1, if_true]
  simp [hsc, halive1]

/-- C1 witness: in a world where pid 100 is alive but not bound to port
8001, a `start` of `python_textract` against a registry holding the live
record returns `AlreadyRunning`, writes nothing, spawns nothing, and
pid 100 stays alive. -/
theorem c1_witness :
    cfgLookup default_config "python_textract" = some
      { type := "backend", language := "python", path := "python/Textract",
        start_command := "python src/lambda_local.py",
        default_port := 8001, health_endpoint := "/health" } ∧
    ((ProjectManager.start_project liveUnboundWorld default_config liveFile
        "python_textract" "backend" []).res = StartResult.alreadyRunning ∧
      (ProjectManager.start_project liveUnboundWorld default_config liveFile
        "python_textract" "backend" []).saves = [] ∧
      (ProjectManager.start_project liveUnboundWorld default_config liveFile
        "python_textract" "backend" []).world.spawnCount =
          liveUnboundWorld.spawnCount ∧
      liveRecord.pid ∈ (ProjectManager.start_project liveUnboundWorld
        default_config liveFile "python_textract" "backend" []).world.alive) :=
  ⟨by decide,
   c1_no_duplicate_bind liveUnboundWorld default_config liveFile
     "python_textract" "backend" []
     { type := "backend", language := "python", path := "python/Textract",
       start_command := "python src/lambda_local.py",
       default_port := 8001, health_endpoint := "/health" }
     liveRecord (by decide) (by decide) (by decide) (by decide) (by decide)
     (by decide) (by decide)⟩

/-- C2 witness: a stale record (pid 999, not in the empty process table)
for `python_textract` on port 8001 is deleted and the deletion saved, the
call is not `AlreadyRunning`, and a spawn is attempted. -/
theorem c2_witness :
    regLookup staleFile (process_key "python_textract" 8001) =
      some staleRecord ∧
    ((ProjectManager.start_project demoWorld default_config staleFile
        "python_textract" "backend" []).res ≠ StartResult.alreadyRunning ∧
      (ProjectManager.start_project demoWorld default_config staleFile
        "python_textract" "backend" []).saves.head? =
        some (regErase staleFile (process_key "python_textract" 8001)) ∧
      (ProjectManager.start_project demoWorld default_config staleFile
        "python_textract" "backend" []).world.spawnCount =
          demoWorld.spawnCount + 1) :=
  ⟨by decide,
   c2_stale_reclamation demoWorld default_config staleFile
     "python_textract" "backend" []
     { type := "backend", language := "python", path := "python/Textract",
       start_command := "python src/lambda_local.py",
       default_port := 8001, health_endpoint := "/health" }
     staleRecord (by decide) (by decide) (by decide) (by decide) (by decide)
     (by decide)⟩

theorem stopOne_eq (w : World) (pid : Nat) :
    stopOne w pid =
      if pid ∈ w.alive then
        if w.killRaises pid then (w, false) else (w.killPid pid, true)
      else (w, true) := by
  unfold stopOne World.sigterm
  by_cases h1 : pid ∈ w.alive
  · by_cases h2 : w.killRaises pid
    · simp [h1, h2]
    · by_cases h3 : w.termKills pid
      · have : pid ∉ (w.killPid pid).alive := by simp [mem_killPid_alive]
        simp [h1, h2, h3, this]
      · simp [h1, h2, h3]
  · simp [h1]

theorem stopOne_snd (w : World) (pid : Nat) :
    (stopOne w pid).2 = killOk w pid := by
  rw [stopOne_eq]
  by_cases h1 : pid ∈ w.alive
  · by_cases h2 : w.killRaises pid <;> simp [h1, h2, killOk]
  · simp [h1, killOk]

theorem stopOne_fst_cases (w : World) (pid : Nat) :
    (stopOne w pid).1 = w ∨ (stopOne w pid).1 = w.killPid pid := by
  rw [stopOne_eq]
  by_cases h1 : pid ∈ w.alive
  · by_cases h2 : w.killRaises pid <;> simp [h1, h2]
  · simp [h1]

theorem stopOne_fst_of_not_ok (w : World) (pid : Nat)
    (h : killOk w pid = false) : (stopOne w pid).1 = w := by
  rw [stopOne_eq]
  have hmem : pid ∈ w.alive := by
    by_contra hmem
    simp [killOk, hmem] at h
  have hkr : w.killRaises pid = true := by
    by_contra hkr
    simp [killOk, hkr] at h
  simp [hmem, hkr]

theorem killOk_stopOne (w : World) (p q : Nat) (h : q ≠ p) :
    killOk (stopOne w p).1 q = killOk w q := by
  rcases stopOne_fst_cases w p with he | he <;> rw [he]
  simp [killOk, World.killPid, List.mem_filter, h]

theorem all_congr_mem {α : Type} (l : List α) (f g : α → Bool)
    (h : ∀ a ∈ l, f a = g a) : l.all f = l.all g := by
  induction l with
  | nil => rfl
  | cons a rest ih =>
    simp only [List.all_cons, h a (List.mem_cons_self a rest)]
    rw [ih fun b hb => h b (List.mem_cons_of_mem a hb)]

theorem handledKeys_congr (w w' : World) (ms : List (String × ProcessRecord))
    (h : ∀ e ∈ ms, killOk w' e.2.pid = killOk w e.2.pid) :
    handledKeys w' ms = handledKeys w ms := by
  unfold handledKeys
  rw [List.filter_congr h]

theorem stopFold_eq (ms : List (String × ProcessRecord)) :
    ∀ (w : World) (procs : Registry) (s : Bool),
    (ms.map fun kv => kv.2.pid).Nodup →
    (stopFold w procs s ms).2.1 =
      procs.filter (fun e => !(handledKeys w ms).contains e.1) ∧
    (stopFold w procs s ms).2.2 = (s && ms.all fun kv => killOk w kv.2.pid) := by
  induction ms with
  | nil =>
    intro w procs s _
    simp [stopFold, handledKeys, List.filter_true]
  | cons kv rest ih =>
    intro w procs s hnd
    obtain ⟨k, info⟩ := kv
    simp only [List.map_cons, List.nodup_cons] at hnd
    obtain ⟨hpid, hnd'⟩ := hnd
    have hne : ∀ e ∈ rest, e.2.pid ≠ info.pid := by
      intro e he hcontra
      exact hpid (hcontra ▸ List.mem_map_of_mem (fun kv => kv.2.pid) he)
    have hstab : ∀ e ∈ rest,
        killOk (stopOne w info.pid).1 e.2.pid = killOk w e.2.pid :=
      fun e he => killOk_stopOne w info.pid e.2.pid (hne e he)
    by_cases hok : killOk w info.pid = true
    · have hstep2 : (stopOne w info.pid).2 = true := (stopOne_snd w info.pid).trans hok
      have hfold : stopFold w procs s ((k, info) :: rest) =
          stopFold (stopOne w info.pid).1 (regErase procs k) s rest := by
        simp [stopFold, hstep2]
      obtain ⟨hreg, hsucc⟩ := ih (stopOne w info.pid).1 (regErase procs k) s hnd'
      have hkeys : handledKeys (stopOne w info.pid).1 rest = handledKeys w rest :=
        handledKeys_congr w (stopOne w info.pid).1 rest hstab
      have hkcons : handledKeys w ((k, info) :: rest) = k :: handledKeys w rest := by
        simp [handledKeys, List.filter_cons, hok]
      constructor
      · rw [hfold, hreg, hkeys, regErase, List.filter_filter, hkcons]
        refine List.filter_congr ?_
        intro e _
        simp only [List.contains_cons]
        by_cases hek : e.1 = k <;> simp [hek]
      · rw [hfold, hsucc, List.all_cons, hok,
          all_congr_mem rest _ _ hstab]
        simp
    · have hok' : killOk w info.pid = false := by
        cases h : killOk w info.pid
        · rfl
        · exact absurd h hok
      have hstep2 : (stopOne w info.pid).2 = false := (stopOne_snd w info.pid).trans hok'
      have hfold : stopFold w procs s ((k, info) :: rest) =
          stopFold w procs false rest := by
        simp [stopFold, hstep2, stopOne_fst_of_not_ok w info.pid hok']
      obtain ⟨hreg, hsucc⟩ := ih w procs false hnd'
      have hkcons : handledKeys w ((k, info) :: rest) = handledKeys w rest := by
        simp [handledKeys, List.filter_cons, hok']
      constructor
      · rw [hfold, hreg, hkcons]
      · rw [hfold, hsucc, List.all_cons, hok']
        simp

theorem stop_project_spec (w : World) (file : Registry) (n t : String)
    (ports : List Nat)
    (hnd : ((stopMatches file n t ports.head?).map fun kv => kv.2.pid).Nodup)
    (hms : stopMatches file n t ports.head? ≠ []) :
    (ProjectManager.stop_project w file n t ports).ok =
      (stopMatches file n t ports.head?).all (fun kv => killOk w kv.2.pid) ∧
    (ProjectManager.stop_project w file n t ports).saves =
      [file.filter (fun e =>
        !(handledKeys w (stopMatches file n t ports.head?)).contains e.1)] := by
  have hie : (stopMatches file n t ports.head?).isEmpty = false := by
    cases h : stopMatches file n t ports.head?
    · exact absurd h hms
    · rfl
  obtain ⟨hreg, hsucc⟩ := stopFold_eq (stopMatches file n t ports.head?) w file true hnd
  unfold ProjectManager.stop_project
  simp only [hie, Bool.false_eq_true, if_false, hreg, hsucc, Bool.true_and]
  constructor <;> trivial

theorem stopMatches_filter (file : Registry) (p : String × ProcessRecord → Bool)
    (n t : String) (port : Option Nat) :
    stopMatches (file.filter p) n t port = (stopMatches file n t port).filter p := by
  unfold stopMatches
  rw [List.filter_filter, List.filter_filter]
  refine List.filter_congr ?_
  intro a _
  exact Bool.and_comm _ _

theorem stop_project_notFound (w : World) (file : Registry) (n t : String)
    (ports : List Nat) (h : stopMatches file n t ports.head? = []) :
    ProjectManager.stop_project w file n t ports = ⟨false, w, []⟩ := by
  simp [ProjectManager.stop_project, h]

/-- C3: when `stop_project` matches several registry entries and
signalling one of them raises an OS-level error, it continues with the
rest: the returned flag is `False`, every successfully handled entry is
absent from the saved registry, the failed entry is still present, and
entries that were never matched are untouched. -/
theorem c3_partial_stop (w : World) (file : Registry) (n t : String)
    (ports : List Nat) (kv : String × ProcessRecord)
    (hkeys : (file.map Prod.fst).Nodup)
    (hnd : ((stopMatches file n t ports.head?).map fun e => e.2.pid).Nodup)
    (hin : kv ∈ stopMatches file n t ports.head?)
    (hfail : killOk w kv.2.pid = false) :
    (ProjectManager.stop_project w file n t ports).ok = false ∧
    (∀ e ∈ stopMatches file n t ports.head?, killOk w e.2.pid = true →
      regLookup ((ProjectManager.stop_project w file n t ports).saves.getLastD file)
        e.1 = none) ∧
    regLookup ((ProjectManager.stop_project w file n t ports).saves.getLastD file)
      kv.1 = some kv.2 ∧
    (∀ e ∈ file, e ∉ stopMatches file n t ports.head? →
      e ∈ (ProjectManager.stop_project w file n t ports).saves.getLastD file) := by
  have hms : stopMatches file n t ports.head? ≠ [] := by
    intro h
    rw [h] at hin
    cases hin
  obtain ⟨hok, hsaves⟩ := stop_project_spec w file n t ports hnd hms
  have hlast : (ProjectManager.stop_project w file n t ports).saves.getLastD file =
      file.filter (fun e =>
        !(handledKeys w (stopMatches file n t ports.head?)).contains e.1) := by
    rw [hsaves]
    rfl
  have hsub : ∀ e, e ∈ stopMatches file n t ports.head? → e ∈ file :=
    fun e he => (List.mem_filter.mp he).1
  refine ⟨?_, ?_, ?_, ?_⟩
  · rw [hok]
    exact List.all_eq_false.mpr ⟨kv, hin, by simp [hfail]⟩
  · intro e he hoke
    rw [hlast]
    refine regLookup_filter_eq_none file _ e.1 ?_
    intro e' _ hkey'
    have hh : e.1 ∈ handledKeys w (stopMatches file n t ports.head?) :=
      List.mem_map_of_mem Prod.fst (List.mem_filter.mpr ⟨he, by simp [hoke]⟩)
    rw [hkey']
    have hel := List.elem_eq_true_of_mem hh
    simpa using hel
  · rw [hlast]
    have hmemfile : kv ∈ file := hsub kv hin
    have hpred : kv.1 ∉ handledKeys w (stopMatches file n t ports.head?) := by
      intro hmem
      obtain ⟨e, hems, hkeq⟩ := List.mem_map.mp hmem
      obtain ⟨hems', hoke⟩ := List.mem_filter.mp hems
      have : e = kv :=
        nodupKeys_entry_unique file hkeys (hsub e hems') hmemfile hkeq
      rw [this] at hoke
      simp [hfail] at hoke
    have hkvmem : kv ∈ file.filter (fun e =>
        !(handledKeys w (stopMatches file n t ports.head?)).contains e.1) := by
      refine List.mem_filter.mpr ⟨hmemfile, ?_⟩
      simp only [Bool.not_eq_true']
      cases hc : (handledKeys w (stopMatches file n t ports.head?)).contains kv.1
      · rfl
      · exact absurd (List.mem_of_elem_eq_true hc) hpred
    have hnodup' : ((file.filter (fun e =>
        !(handledKeys w (stopMatches file n t ports.head?)).contains e.1)).map
          Prod.fst).Nodup :=
      hkeys.sublist ((List.filter_sublist file).map Prod.fst)
    exact regLookup_of_mem _ hnodup' hkvmem
  · intro e hef hnotms
    rw [hlast]
    refine List.mem_filter.mpr ⟨hef, ?_⟩
    simp only [Bool.not_eq_true']
    cases hc : (handledKeys w (stopMatches file n t ports.head?)).contains e.1
    · rfl
    · exfalso
      obtain ⟨e', hems, hkeq⟩ := List.mem_map.mp (List.mem_of_elem_eq_true hc)
      obtain ⟨hems', _⟩ := List.mem_filter.mp hems
      have : e' = e :=
        nodupKeys_entry_unique file hkeys (hsub e' hems') hef hkeq
      exact hnotms (this ▸ hems')

/-- C3 witness: three registered `svc` instances with pids 11, 12, 13,
where signalling pid 12 raises a permission error: `stop` reports
failure, the saved registry has lost the entries for pids 11 and 13 and
still holds the failed entry for pid 12. -/
theorem c3_witness :
    ("svc_9002", recB) ∈ stopMatches threeFile "svc" "backend"
      (List.head? ([] : List Nat)) ∧
    killOk permWorld recB.pid = false ∧
    ((ProjectManager.stop_project permWorld threeFile "svc" "backend" []).ok = false ∧
      (∀ e ∈ stopMatches threeFile "svc" "backend" (List.head? ([] : List Nat)),
        killOk permWorld e.2.pid = true →
        regLookup ((ProjectManager.stop_project permWorld threeFile "svc" "backend"
          []).saves.getLastD threeFile) e.1 = none) ∧
      regLookup ((ProjectManager.stop_project permWorld threeFile "svc" "backend"
        []).saves.getLastD threeFile) "svc_9002" = some recB ∧
      (∀ e ∈ threeFile, e ∉ stopMatches threeFile "svc" "backend"
          (List.head? ([] : List Nat)) →
        e ∈ (ProjectManager.stop_project permWorld threeFile "svc" "backend"
          []).saves.getLastD threeFile)) :=
  ⟨by decide, by decide,
   c3_partial_stop permWorld threeFile "svc" "backend" [] ("svc_9002", recB)
     (by decide) (by decide) (by decide) (by decide)⟩

/-- C4: stopping with no matching registry entry returns the `NotFound`
failure without touching the registry file or the OS (and the embedded
`stop_project` is a total function: every `os.kill` error is caught
inside it, so it never propagates an exception); after a stop whose
matched entries were all signalled without an OS error, an immediately
repeated stop matches nothing, returns `NotFound`, and leaves the
registry file and the OS process state exactly as the first stop left
them. -/
theorem c4_idempotent_stop (w : World) (file : Registry) (n t : String)
    (ports : List Nat)
    (hnd : ((stopMatches file n t ports.head?).map fun e => e.2.pid).Nodup)
    (hok : ∀ e ∈ stopMatches file n t ports.head?, killOk w e.2.pid = true) :
    (stopMatches file n t ports.head? = [] →
      ProjectManager.stop_project w file n t ports = ⟨false, w, []⟩) ∧
    (stopMatches file n t ports.head? ≠ [] →
      (ProjectManager.stop_project w file n t ports).ok = true ∧
      ProjectManager.stop_project
          (ProjectManager.stop_project w file n t ports).world
          ((ProjectManager.stop_project w file n t ports).saves.getLastD file)
          n t ports =
        ⟨false, (ProjectManager.stop_project w file n t ports).world, []⟩) := by
  constructor
  · intro h
    exact stop_project_notFound w file n t ports h
  · intro hms
    obtain ⟨hokk, hsaves⟩ := stop_project_spec w file n t ports hnd hms
    have hlast : (ProjectManager.stop_project w file n t ports).saves.getLastD file =
        file.filter (fun e =>
          !(handledKeys w (stopMatches file n t ports.head?)).contains e.1) := by
      rw [hsaves]
      rfl
    constructor
    · rw [hokk]
      exact List.all_eq_true.mpr hok
    · rw [hlast]
      refine stop_project_notFound _ _ n t ports ?_
      rw [stopMatches_filter]
      refine List.filter_eq_nil_iff.mpr ?_
      intro e hems hcontra
      have hh : e.1 ∈ handledKeys w (stopMatches file n t ports.head?) :=
        List.mem_map_of_mem Prod.fst
          (List.mem_filter.mpr ⟨hems, by simp [hok e hems]⟩)
      have hc2 : (handledKeys w (stopMatches file n t ports.head?)).contains e.1 =
          true :=
        List.elem_eq_true_of_mem hh
      rw [hc2] at hcontra
      simp at hcontra

/-- C4 witness: stopping the single registered `svc` instance succeeds,
and stopping again immediately returns the `NotFound` failure with no
registry write and the OS state unchanged; stopping an unregistered
service returns `NotFound` untouched. -/
theorem c4_witness :
    ((stopMatches oneFile "svc" "backend" (List.head? ([] : List Nat))).map
      (fun e => e.2.pid)).Nodup ∧
    ((stopMatches oneFile "svc" "backend" (List.head? ([] : List Nat)) = [] →
      ProjectManager.stop_project oneAliveWorld oneFile "svc" "backend" [] =
        ⟨false, oneAliveWorld, []⟩) ∧
    (stopMatches oneFile "svc" "backend" (List.head? ([] : List Nat)) ≠ [] →
      (ProjectManager.stop_project oneAliveWorld oneFile "svc" "backend" []).ok = true ∧
      ProjectManager.stop_project
          (ProjectManager.stop_project oneAliveWorld oneFile "svc" "backend" []).world
          ((ProjectManager.stop_project oneAliveWorld oneFile "svc" "backend"
            []).saves.getLastD oneFile)
          "svc" "backend" [] =
        ⟨false, (ProjectManager.stop_project oneAliveWorld oneFile "svc" "backend"
          []).world, []⟩)) :=
  ⟨by decide,
   c4_idempotent_stop oneAliveWorld oneFile "svc" "backend" []
     (by decide) (by decide)⟩

/-- C10: a `start_project` call whose child exits within the startup wait,
or whose spawn raises, writes no new record: every registry save such a
call performed equals the input registry minus the stale key (and in
particular holds no record under the key); a record is persisted — as the
last save, inserted under the key — only when the call returns
`started`. -/
theorem c10_launch_atomicity (w : World) (config : Config) (file : Registry)
    (n t : String) (ports : List Nat) (pc : ServiceDef)
    (hc : cfgLookup config n = some pc) :
    ((ProjectManager.start_project w config file n t ports).res.isStarted = false →
      ∀ r ∈ (ProjectManager.start_project w config file n t ports).saves,
        r = regErase file (process_key n (ports.headD pc.default_port)) ∧
        regLookup r (process_key n (ports.headD pc.default_port)) = none) ∧
    (∀ rec, (ProjectManager.start_project w config file n t ports).res =
        StartResult.started rec →
      (ProjectManager.start_project w config file n t ports).saves.getLast? =
        some (regInsert
          (regErase file (process_key n (ports.headD pc.default_port)))
          (process_key n (ports.headD pc.default_port)) rec)) := by
  simp only [ProjectManager.start_project, hc]
  simp only [List.headD_eq_head?_getD]
  split
  · exact ⟨fun _ r hr => absurd hr (List.not_mem_nil r), fun rec h => nomatch h⟩
  · split
    · exact ⟨fun _ r hr => absurd hr (List.not_mem_nil r), fun rec h => nomatch h⟩
    · split
      · exact ⟨fun _ r hr => absurd hr (List.not_mem_nil r), fun rec h => nomatch h⟩
      · rename_i w1 _
        split
        · exact ⟨fun _ r hr => absurd hr (List.not_mem_nil r), fun rec h => nomatch h⟩
        · rename_i file1 saves1 heq
          have hfs : (file1 = regErase file (process_key n (ports.head?.getD pc.default_port)) ∧
              saves1 = [regErase file (process_key n (ports.head?.getD pc.default_port))]) ∨
              (file1 = file ∧ saves1 = [] ∧
                regLookup file (process_key n (ports.head?.getD pc.default_port)) = none) := by
            split at heq
            · rename_i info hlook
              split at heq
              · cases heq
              · cases heq
                exact Or.inl ⟨rfl, rfl⟩
            · rename_i hlook
              cases heq
              exact Or.inr ⟨rfl, rfl, hlook⟩
          have hins : regInsert file1 (process_key n (ports.head?.getD pc.default_port)) =
              regInsert (regErase file (process_key n (ports.head?.getD pc.default_port)))
                (process_key n (ports.head?.getD pc.default_port)) := by
            rcases hfs with ⟨h1, _⟩ | ⟨h1, _, hnone⟩
            · rw [h1]
            · rw [h1, regErase_of_lookup_none file _ hnone]
          have hsv : ∀ r ∈ saves1,
              r = regErase file (process_key n (ports.head?.getD pc.default_port)) ∧
              regLookup r (process_key n (ports.head?.getD pc.default_port)) = none := by
            rcases hfs with ⟨_, h2⟩ | ⟨_, h2, _⟩ <;> rw [h2]
            · intro r hr
              rcases List.mem_singleton.mp hr with rfl
              exact ⟨rfl, regLookup_regErase_self file _⟩
            · intro r hr
              exact absurd hr (List.not_mem_nil r)
          split
          · exact ⟨fun _ r hr => hsv r hr, fun rec h => nomatch h⟩
          · split
            · constructor
              · intro hfalse
                simp [StartResult.isStarted] at hfalse
              · intro rec h
                cases h
                rcases hfs with ⟨_, h2⟩ | ⟨_, h2, _⟩ <;>
                  rw [h2] <;> simp [hins]
            · exact ⟨fun _ r hr => hsv r hr, fun rec h => nomatch h⟩

/-- C10 witness: with a spawn that dies during the startup wait, a start
of `python_textract` against a registry holding a stale record performs
only the stale-entry deletion: every save equals the registry minus the
key and holds no record for it; and no `started` result exists. -/
theorem c10_witness :
    cfgLookup default_config "python_textract" = some
      { type := "backend", language := "python", path := "python/Textract",
        start_command := "python src/lambda_local.py",
        default_port := 8001, health_endpoint := "/health" } ∧
    (((ProjectManager.start_project failSpawnWorld default_config staleFile
        "python_textract" "backend" []).res.isStarted = false →
      ∀ r ∈ (ProjectManager.start_project failSpawnWorld default_config staleFile
          "python_textract" "backend" []).saves,
        r = regErase staleFile (process_key "python_textract"
          (([] : List Nat).headD 8001)) ∧
        regLookup r (process_key "python_textract"
          (([] : List Nat).headD 8001)) = none) ∧
    (∀ rec, (ProjectManager.start_project failSpawnWorld default_config staleFile
        "python_textract" "backend" []).res = StartResult.started rec →
      (ProjectManager.start_project failSpawnWorld default_config staleFile
          "python_textract" "backend" []).saves.getLast? =
        some (regInsert (regErase staleFile (process_key "python_textract"
            (([] : List Nat).headD 8001)))
          (process_key "python_textract" (([] : List Nat).headD 8001)) rec))) :=
  ⟨by decide,
   c10_launch_atomicity failSpawnWorld default_config staleFile
     "python_textract" "backend" []
     { type := "backend", language := "python", path := "python/Textract",
       start_command := "python src/lambda_local.py",
       default_port := 8001, health_endpoint := "/health" }
     (by decide)⟩

theorem cleanupLoop_all_dead (pids : List Nat) (w : World)
    (h : ∀ q ∈ pids, q ∉ w.alive) :
    cleanupLoop w pids = .ok (none, w) := by
  induction pids with
  | nil => rfl
  | cons pid rest ih =>
    have hd := h pid (List.mem_cons_self pid rest)
    simp only [cleanupLoop, hd, if_false]
    exact ih fun q hq => h q (List.mem_cons_of_mem pid hq)

theorem cleanupLoop_first_alive (pre : List Nat) :
    ∀ (p : Nat) (post : List Nat) (w : World),
    (∀ q ∈ pre, q ∉ w.alive) → p ∈ w.alive → w.killRaises p = false →
    cleanupLoop w (pre ++ p :: post) = .ok (some true, w.killPid p) := by
  induction pre with
  | nil =>
    intro p post w _ hp hkr
    simp only [List.nil_append, cleanupLoop, hp, if_true, hkr,
      Bool.false_eq_true, if_false]
    unfold World.sigterm
    by_cases ht : w.termKills p
    · have : p ∉ (w.killPid p).alive := by simp [mem_killPid_alive]
      simp [ht, this]
    · simp [ht, hp, hkr]
  | cons q pre' ih =>
    intro p post w hpre hp hkr
    have hq := hpre q (List.mem_cons_self q pre')
    simp only [List.cons_append, cleanupLoop, hq, if_false]
    exact ih p post w (fun r hr => hpre r (List.mem_cons_of_mem q hr)) hp hkr

/-- C5 (amended): `cleanup_port` of `cleanup_ports.py` scans the pids
bound to the port in order and terminates only the first one that is
still alive (SIGTERM, grace sleep, SIGKILL via `World.killPid`),
immediately returning `True` and leaving every later bound pid running;
it returns `False` when the port has no bound pids or `lsof` is
unavailable, and returns Python `None` when pids were listed but all had
already exited. -/
theorem c5_port_reconciler (w : World) (port : Nat)
    (hkr : ∀ q ∈ w.bound port, w.killRaises q = false) :
    (w.lsofAvailable = false → cleanup_port w port = .ok (some false, w)) ∧
    (w.bound port = [] → cleanup_port w port = .ok (some false, w)) ∧
    (w.lsofAvailable = true →
      ∀ pre p post, w.bound port = pre ++ p :: post →
        (∀ q ∈ pre, q ∉ w.alive) → p ∈ w.alive →
        cleanup_port w port = .ok (some true, w.killPid p)) ∧
    (w.lsofAvailable = true → w.bound port ≠ [] →
      (∀ q ∈ w.bound port, q ∉ w.alive) →
      cleanup_port w port = .ok (none, w)) := by
  refine ⟨?_, ?_, ?_, ?_⟩
  · intro h
    simp [cleanup_port, h]
  · intro h
    cases hls : w.lsofAvailable <;> simp [cleanup_port, h, hls]
  · intro hls pre p post hsplit hpre hp
    have hie : (w.bound port).isEmpty = false := by
      rw [hsplit]
      cases pre <;> rfl
    have hkrp : w.killRaises p = false :=
      hkr p (hsplit ▸ List.mem_append_right pre (List.mem_cons_self p post))
    simp only [cleanup_port, hls, if_true, hie, Bool.false_eq_true, if_false]
    rw [hsplit]
    exact cleanupLoop_first_alive pre p post w hpre hp hkrp
  · intro hls hne hdead
    have hie : (w.bound port).isEmpty = false := by
      cases h : w.bound port
      · exact absurd h hne
      · rfl
    simp only [cleanup_port, hls, if_true, hie, Bool.false_eq_true, if_false]
    exact cleanupLoop_all_dead (w.bound port) w hdead

/-- C5 witness: in `twoPidWorld` (live pids 7 and 8 bound to port 9000)
the reconciler kills pid 7 and returns `True` at once; the remaining
clauses cover the free-port, `lsof`-less, and all-stale cases. -/
theorem c5_witness :
    (∀ q ∈ twoPidWorld.bound 9000, twoPidWorld.killRaises q = false) ∧
    ((twoPidWorld.lsofAvailable = false →
      cleanup_port twoPidWorld 9000 = .ok (some false, twoPidWorld)) ∧
    (twoPidWorld.bound 9000 = [] →
      cleanup_port twoPidWorld 9000 = .ok (some false, twoPidWorld)) ∧
    (twoPidWorld.lsofAvailable = true →
      ∀ pre p post, twoPidWorld.bound 9000 = pre ++ p :: post →
        (∀ q ∈ pre, q ∉ twoPidWorld.alive) → p ∈ twoPidWorld.alive →
        cleanup_port twoPidWorld 9000 = .ok (some true, twoPidWorld.killPid p)) ∧
    (twoPidWorld.lsofAvailable = true → twoPidWorld.bound 9000 ≠ [] →
      (∀ q ∈ twoPidWorld.bound 9000, q ∉ twoPidWorld.alive) →
      cleanup_port twoPidWorld 9000 = .ok (none, twoPidWorld))) :=
  ⟨by decide, c5_port_reconciler twoPidWorld 9000 (by decide)⟩

theorem digitChar_toNat_sub (m : Nat) (h : m < 10) :
    (Nat.digitChar m).toNat - 48 = m := by
  interval_cases m <;> decide

theorem digitChar_ne_underscore (m : Nat) (h : m < 10) :
    Nat.digitChar m ≠ '_' := by
  interval_cases m <;> decide

theorem toDigitsCore_append (f : Nat) : ∀ (n : Nat) (acc : List Char),
    Nat.toDigitsCore 10 f n acc = Nat.toDigitsCore 10 f n [] ++ acc := by
  induction f with
  | zero => intro n acc; rfl
  | succ f ih =>
    intro n acc
    by_cases h : n / 10 = 0
    · simp [Nat.toDigitsCore, h]
    · simp only [Nat.toDigitsCore, h, if_false]
      rw [ih (n / 10) [Nat.digitChar (n % 10)],
        ih (n / 10) (Nat.digitChar (n % 10) :: acc), List.append_assoc]
      rfl

theorem toDigitsCore_no_underscore (f : Nat) : ∀ (n : Nat) (acc : List Char),
    '_' ∉ acc → '_' ∉ Nat.toDigitsCore 10 f n acc := by
  induction f with
  | zero => intro n acc h; exact h
  | succ f ih =>
    intro n acc h
    have hd : Nat.digitChar (n % 10) ≠ '_' :=
      digitChar_ne_underscore (n % 10) (Nat.mod_lt n (by decide))
    have hacc : '_' ∉ Nat.digitChar (n % 10) :: acc := by
      intro hmem
      rcases List.mem_cons.mp hmem with he | he
      · exact hd he.symm
      · exact h he
    by_cases hdiv : n / 10 = 0
    · simpa [Nat.toDigitsCore, hdiv] using hacc
    · simpa [Nat.toDigitsCore, hdiv] using ih (n / 10) _ hacc

theorem digitsVal_append_singleton (l : List Char) (c : Char) :
    digitsVal (l ++ [c]) = 10 * digitsVal l + (c.toNat - 48) := by
  simp [digitsVal, List.foldl_append]

theorem toDigitsCore_val (f : Nat) : ∀ n, n < f →
    digitsVal (Nat.toDigitsCore 10 f n []) = n := by
  induction f with
  | zero => intro n h; exact absurd h (Nat.not_lt_zero n)
  | succ f ih =>
    intro n h
    by_cases hdiv : n / 10 = 0
    · have hlt : n < 10 := (Nat.div_eq_zero_iff (by decide)).mp hdiv
      simp only [Nat.toDigitsCore, hdiv, if_true]
      rw [Nat.mod_eq_of_lt hlt]
      simpa [digitsVal] using digitChar_toNat_sub n hlt
    · have hn : 0 < n := by
        rcases Nat.eq_zero_or_pos n with rfl | hp
        · simp at hdiv
        · exact hp
      have hlt : n / 10 < f := by
        have h1 : n / 10 < n := Nat.div_lt_self hn (by decide)
        omega
      simp only [Nat.toDigitsCore, hdiv, if_false]
      rw [toDigitsCore_append f (n / 10) [Nat.digitChar (n % 10)],
        digitsVal_append_singleton, ih (n / 10) hlt,
        digitChar_toNat_sub (n % 10) (Nat.mod_lt n (by decide))]
      exact Nat.div_add_mod n 10

theorem repr_val (n : Nat) : digitsVal (Nat.repr n).data = n :=
  toDigitsCore_val (n + 1) n (Nat.lt_succ_self n)

theorem repr_no_underscore (n : Nat) : '_' ∉ (Nat.repr n).data :=
  toDigitsCore_no_underscore (n + 1) n [] (List.not_mem_nil '_')

theorem repr_injective (m n : Nat) (h : Nat.repr m = Nat.repr n) : m = n := by
  rw [← repr_val m, ← repr_val n, h]

theorem append_underscore_inj (a1 : List Char) :
    ∀ (a2 b1 b2 : List Char), '_' ∉ b1 → '_' ∉ b2 →
    a1 ++ '_' :: b1 = a2 ++ '_' :: b2 → a1 = a2 ∧ b1 = b2 := by
  induction a1 with
  | nil =>
    intro a2 b1 b2 h1 _ h
    cases a2 with
    | nil => simpa using h
    | cons y ys =>
      simp only [List.nil_append, List.cons_append, List.cons.injEq] at h
      exfalso
      apply h1
      rw [h.2]
      exact List.mem_append_right ys (h.1 ▸ List.mem_cons_self '_' b2)
  | cons x xs ih =>
    intro a2 b1 b2 h1 h2 h
    cases a2 with
    | nil =>
      simp only [List.nil_append, List.cons_append, List.cons.injEq] at h
      exfalso
      apply h2
      rw [← h.2]
      exact List.mem_append_right xs (h.1.symm ▸ List.mem_cons_self '_' b1)
    | cons y ys =>
      simp only [List.cons_append, List.cons.injEq] at h
      obtain ⟨hxy, htail⟩ := h
      obtain ⟨hs, hb⟩ := ih ys b1 b2 h1 h2 htail
      exact ⟨by rw [hxy, hs], hb⟩

theorem process_key_inj (s1 s2 : String) (p1 p2 : Nat)
    (h : process_key s1 p1 = process_key s2 p2) : s1 = s2 ∧ p1 = p2 := by
  have hd : s1.data ++ '_' :: (Nat.repr p1).data =
      s2.data ++ '_' :: (Nat.repr p2).data := by
    have hh := congrArg String.data h
    simpa [process_key, String.data_append, toString] using hh
  obtain ⟨hs, hp⟩ := append_underscore_inj s1.data s2.data _ _
    (repr_no_underscore p1) (repr_no_underscore p2) hd
  exact ⟨String.ext hs, repr_injective p1 p2 (String.ext hp)⟩

theorem filter_key_length_le_one (file : Registry)
    (hkeys : (file.map Prod.fst).Nodup) (k : String) :
    (file.filter (fun kv => kv.1 == k)).length ≤ 1 := by
  induction file with
  | nil => simp
  | cons kv rest ih =>
    simp only [List.map_cons, List.nodup_cons] at hkeys
    by_cases hk : kv.1 = k
    · have hnil : rest.filter (fun kv => kv.1 == k) = [] := by
        refine List.filter_eq_nil_iff.mpr ?_
        intro e he hcontra
        rw [beq_iff_eq] at hcontra
        exact hkeys.1 (hk ▸ hcontra ▸ List.mem_map_of_mem Prod.fst he)
      simp [List.filter_cons, hk, hnil]
    · simpa [List.filter_cons, hk] using ih hkeys.2

/-- C7: the spec's §3 key format `serviceName + ":" + port` is wrong: the
code builds registry keys with an underscore separator (`f"{name}_{port}"`,
the `process_key` used by `start_project`). -/
theorem c7_counterexample :
    process_key "python_textract" 8001 = "python_textract_8001" ∧
    process_key "python_textract" 8001 ≠ "python_textract:8001" := by decide

/-- C7 (amended): registry keys are `serviceName ++ "_" ++ port`
(`process_key`, the key `start_project` writes records under).  The
encoding is injective — the decimal port rendering contains no
underscore, so the text after the last underscore determines the port
and the rest the service — and a registry whose keys are distinct
therefore holds at most one record per `(service, port)` pair. -/
theorem c7_registry_key (s1 s2 : String) (p1 p2 : Nat) (file : Registry)
    (hkeys : (file.map Prod.fst).Nodup)
    (h : process_key s1 p1 = process_key s2 p2) :
    s1 = s2 ∧ p1 = p2 ∧
    (file.filter (fun kv => kv.1 == process_key s1 p1)).length ≤ 1 := by
  obtain ⟨hs, hp⟩ := process_key_inj s1 s2 p1 p2 h
  exact ⟨hs, hp, filter_key_length_le_one file hkeys _⟩

/-- C7 witness: the key of `svc` on port 9001 decodes back to exactly
that pair, and the three-entry registry holds at most one record under
it. -/
theorem c7_witness :
    (threeFile.map Prod.fst).Nodup ∧
    ("svc" = "svc" ∧ 9001 = 9001 ∧
      (threeFile.filter (fun kv => kv.1 == process_key "svc" 9001)).length ≤ 1) :=
  ⟨by decide,
   c7_registry_key "svc" "svc" 9001 9001 threeFile (by decide) rfl⟩

end BDA

